import Mathlib

/-!
Verification development for the `inventory_collector` repository.

The device-output parsing and inventory-aggregation pipeline is shallowly
embedded: Python strings become `String`/`List Char`, Python dicts with
string values become association lists with insertion-order update
semantics, `re.search` with the fixed patterns of the source becomes a
leftmost-position search with a hand-resolved per-position matcher per
pattern, and Python exceptions become `Except PyErr`.

Sources embedded:
  * `src/src/core/output_parser.py`   (class `OutputParser`)
  * `src/src/parsers/cisco_parser.py` (class `CiscoParser`)
  * `src/src/core/inventory_collector.py` (class `InventoryCollector`)
-/

/-! ## Python character classes and string primitives -/

/-- Python `\s` (ASCII): space, tab, newline, carriage return, vertical tab, form feed. -/
def isPySpace (c : Char) : Bool :=
  c = ' ' || c = '\t' || c = '\n' || c = '\r' || c = '\x0b' || c = '\x0c'

/-- Character class `[A-Za-z0-9\-_]` used by the hostname patterns. -/
def isHostChar (c : Char) : Bool :=
  c.isAlphanum || c = '-' || c = '_'

/-- Python `\w` (ASCII): letters, digits, underscore. -/
def isPyWord (c : Char) : Bool :=
  c.isAlphanum || c = '_'

/-- Python `\S`: any character that is not whitespace. -/
def isNonSpace (c : Char) : Bool := !isPySpace c

/-- Hex digit under `re.IGNORECASE` for the class `[0-9a-f]`. -/
def isHexCI (c : Char) : Bool :=
  c.isDigit || ('a' ≤ c.toLower && c.toLower ≤ 'f')

/-- Class `[0-9a-f:.]` (with `IGNORECASE`) from `System MAC Address` pattern. -/
def isMacChar (c : Char) : Bool := isHexCI c || c = ':' || c = '.'

/-- Class `[0-9a-fA-F:.-]` from the Cisco `Base ethernet MAC Address` pattern. -/
def isBaseMacChar (c : Char) : Bool := isHexCI c || c = ':' || c = '.' || c = '-'

/-- Class `[\w.\-()]` from the generic `version` pattern. -/
def isVerChar (c : Char) : Bool :=
  isPyWord c || c = '.' || c = '-' || c = '(' || c = ')'

/-- Case-sensitive literal match: consume `lit` from the front of `cs`. -/
def stripLit : List Char → List Char → Option (List Char)
  | [], cs => some cs
  | _ :: _, [] => none
  | l :: ls, c :: cs => if c = l then stripLit ls cs else none

/-- Case-insensitive literal match (`re.IGNORECASE`, ASCII lowering). -/
def stripLitCI : List Char → List Char → Option (List Char)
  | [], cs => some cs
  | _ :: _, [] => none
  | l :: ls, c :: cs => if c.toLower = l.toLower then stripLitCI ls cs else none

/-- `re.search` driver: try the per-position matcher `att` at every position
left to right (including the position at end of text), first success wins. -/
def reSearch (att : List Char → Option (List Char)) : List Char → Option (List Char)
  | [] => att []
  | c :: t =>
    match att (c :: t) with
    | some g => some g
    | none => reSearch att t

/-- Shared tail of the matchers: a captured `+`-quantified group must be
non-empty. -/
def guardNE (l : List Char) : Option (List Char) :=
  if l.isEmpty then none else some l

/-- Python `str.strip()`. -/
def pyStrip (l : List Char) : List Char :=
  ((l.dropWhile isPySpace).reverse.dropWhile isPySpace).reverse

/-- Python `str.split('\n')`. -/
def splitNl : List Char → List (List Char)
  | [] => [[]]
  | c :: t =>
    if c = '\n' then [] :: splitNl t
    else
      match splitNl t with
      | [] => [[c]]
      | h :: r => (c :: h) :: r

/-- Python `needle in haystack` substring test. -/
def hasSubstr (needle : List Char) : List Char → Bool
  | [] => (stripLit needle []).isSome
  | c :: t => (stripLit needle (c :: t)).isSome || hasSubstr needle t

/-- Accumulator form of whitespace splitting (current token reversed). -/
def pySplitWsAux : List Char → List Char → List (List Char)
  | [], acc => if acc.isEmpty then [] else [acc.reverse]
  | c :: t, acc =>
    if isPySpace c then
      if acc.isEmpty then pySplitWsAux t [] else acc.reverse :: pySplitWsAux t []
    else pySplitWsAux t (c :: acc)

/-- Python `str.split()` with no argument: split on whitespace runs, no empties. -/
def pySplitWs (l : List Char) : List (List Char) := pySplitWsAux l []

/-- Python `str.replace(a, b)` for single characters. -/
def pyReplaceChar (a b : Char) (l : List Char) : List Char :=
  l.map (fun c => if c = a then b else c)

/-! ## Per-position matchers for the fixed regexes of `output_parser.py`

Each matcher resolves one of the source's `re.search` patterns at one
position; the backtracking of the Python engine is resolved by hand and
noted where it matters.  `reSearch` supplies the leftmost-match rule. -/

/-- `([A-Za-z0-9\-_]+)\s*>` and `([A-Za-z0-9\-_]+)\s*#` at one position:
a greedy host-char run, optional whitespace, then the prompt character.
Shrinking the greedy run cannot help (the following character would be a
host char, which is neither whitespace nor the prompt), so the run is maximal. -/
def attPrompt (stop : Char) (cs : List Char) : Option (List Char) :=
  let g := cs.takeWhile isHostChar
  match (cs.drop g.length).dropWhile isPySpace with
  | [] => none
  | c :: _ => if c = stop then guardNE g else none

/-- `Hostname\s*[:=]?\s*([A-Za-z0-9\-_]+)` at one position (case-sensitive):
literal, whitespace, at most one `:`/`=`, whitespace, then a host-char run. -/
def attHostnameLabel (cs : List Char) : Option (List Char) :=
  match stripLit "Hostname".data cs with
  | none => none
  | some rest =>
    let q := rest.dropWhile isPySpace
    match q with
    | [] => none
    | c :: t =>
      let r := if c = ':' || c = '=' then t.dropWhile isPySpace else q
      guardNE (r.takeWhile isHostChar)

/-- `{lit}\s+(\S+)` at one position, case-insensitive: used for
`Version\s+([\S]+)` (the literal is `Version`). -/
def attLitWsGroup (lit : List Char) (cs : List Char) : Option (List Char) :=
  match stripLitCI lit cs with
  | none => none
  | some rest =>
    let w := rest.takeWhile isPySpace
    if w.isEmpty then none
    else guardNE ((rest.drop w.length).takeWhile isNonSpace)

/-- `{lit}\s*:\s*(cls+)` at one position, case-insensitive: used for
`System serial number`, `Model number`, `System MAC Address`. -/
def attLabelColon (lit : List Char) (cls : Char → Bool) (cs : List Char) :
    Option (List Char) :=
  match stripLitCI lit cs with
  | none => none
  | some rest =>
    match rest.dropWhile isPySpace with
    | [] => none
    | c :: t =>
      if c = ':' then guardNE ((t.dropWhile isPySpace).takeWhile cls)
      else none

/-- `uptime is (.+)` at one position, case-insensitive: literal, then a greedy
dot-run to the end of the line (at least one character, `.` excludes `\n`). -/
def attUptimeIs (cs : List Char) : Option (List Char) :=
  match stripLitCI "uptime is ".data cs with
  | none => none
  | some rest => guardNE (rest.takeWhile (fun c => c ≠ '\n'))

/-- Tail `\s*[:=]?\s*(G+)` at one position, shared by the generic
`serial`/`model`/`version`/`uptime` patterns.  Backtracking resolved:
when the separator is present but no `G` character follows it, the engine
retries with the optional `[:=]` unmatched, which succeeds exactly when the
separator character itself is in `G` (true for `\S`, false for the
restricted classes). -/
def attOptColonTail (cls : Char → Bool) (cs : List Char) : Option (List Char) :=
  let q := cs.dropWhile isPySpace
  match q with
  | [] => none
  | c :: t =>
    if c = ':' || c = '=' then
      let run := (t.dropWhile isPySpace).takeWhile cls
      if run.isEmpty then guardNE (q.takeWhile cls)
      else some run
    else guardNE (q.takeWhile cls)

/-- `[Ss]erial\s*[Nn]umber\s*[:=]?\s*(\S+)` at one position (the surrounding
`_search_regex` adds `re.IGNORECASE`, so the classes reduce to literals). -/
def attGenericSerial (cs : List Char) : Option (List Char) :=
  match stripLitCI "serial".data cs with
  | none => none
  | some rest =>
    match stripLitCI "number".data (rest.dropWhile isPySpace) with
    | none => none
    | some rest2 => attOptColonTail isNonSpace rest2

/-- `Model\s*[:=]?\s*(\S+)` at one position, case-insensitive. -/
def attGenericModel (cs : List Char) : Option (List Char) :=
  match stripLitCI "Model".data cs with
  | none => none
  | some rest => attOptColonTail isNonSpace rest

/-- `[Vv]ersion\s*[:=]?\s*([\w.\-()]+)` at one position, case-insensitive. -/
def attGenericVersion (cs : List Char) : Option (List Char) :=
  match stripLitCI "version".data cs with
  | none => none
  | some rest => attOptColonTail isVerChar rest

/-- Tail `\s*[:=]?\s*(.+)` at one position.  Unlike the `\S`/restricted-class
tails, `.` also matches whitespace other than `\n`, so when everything after
the (optional) separator is whitespace the engine backtracks the whitespace
stars until `.+` absorbs the last character that is not a newline. -/
def attDotTail (cs : List Char) : Option (List Char) :=
  let q := cs.dropWhile isPySpace
  match q with
  | [] =>
    match cs.reverse.dropWhile (fun c => c = '\n') with
    | [] => none
    | c :: _ => some [c]
  | c :: t =>
    if c = ':' || c = '=' then
      let run := (t.dropWhile isPySpace).takeWhile (fun x => x ≠ '\n')
      if run.isEmpty then
        match t.reverse.dropWhile (fun x => x = '\n') with
        | [] => some [c]
        | d :: _ => some [d]
      else some run
    else
      some (q.takeWhile (fun x => x ≠ '\n'))

/-- `[Uu]ptime\s*[:=]?\s*(.+)` at one position, case-insensitive. -/
def attGenericUptime (cs : List Char) : Option (List Char) :=
  match stripLitCI "uptime".data cs with
  | none => none
  | some rest => attDotTail rest

/-- Two hex digits (`[0-9a-f]{2}` under `IGNORECASE`): the matched pair and
the remaining text. -/
def hexPair2 : List Char → Option (List Char × List Char)
  | a :: b :: t => if isHexCI a && isHexCI b then some ([a, b], t) else none
  | _ => none

/-- One `(?::[0-9a-f]{2})` step of the MAC pattern. -/
def colonHexStep : Option (List Char × List Char) → Option (List Char × List Char)
  | none => none
  | some (g, ':' :: l) =>
    match hexPair2 l with
    | some (p, r) => some (g ++ ':' :: p, r)
    | none => none
  | some (_, _) => none

/-- `([0-9a-f]{2}(?::[0-9a-f]{2}){5})` at one position, case-insensitive:
six colon-separated hex pairs. -/
def attMac6 (cs : List Char) : Option (List Char) :=
  match hexPair2 cs with
  | none => none
  | some (p0, r0) =>
    (colonHexStep (colonHexStep (colonHexStep (colonHexStep
      (colonHexStep (some (p0, r0))))))).map Prod.fst

/-! ## `OutputParser` (src/src/core/output_parser.py) -/

/-- Dictionary with string keys and string values, in Python insertion order. -/
abbrev SDict := List (String × String)

/-- Python `d[k]` / `k in d` lookup. -/
def sget? : SDict → String → Option String
  | [], _ => none
  | (k', v) :: t, k => if k' = k then some v else sget? t k

/-- Python `d[k] = v`: replace in place, or append a new key. -/
def sset : SDict → String → String → SDict
  | [], k, v => [(k, v)]
  | (k', v') :: t, k, v => if k' = k then (k, v) :: t else (k', v') :: sset t k v

/-- Keys of a dictionary in order. -/
def skeys (d : SDict) : List String := d.map Prod.fst

/-- `OutputParser._search_regex(pattern, text)`: first-match group or the
sentinel `"Unknown"` (the compiled pattern is represented by its resolved
per-position matcher `att`). -/
def searchRegex (att : List Char → Option (List Char)) (text : String) : String :=
  match reSearch att text.data with
  | some g => g.asString
  | none => "Unknown"

/-- `OutputParser.extract_hostname`: the three patterns in priority order,
first match wins, sentinel `"Unknown"` otherwise. -/
def extract_hostname (output : String) : String :=
  match reSearch (attPrompt '>') output.data with
  | some g => g.asString
  | none =>
    match reSearch (attPrompt '#') output.data with
    | some g => g.asString
    | none =>
      match reSearch attHostnameLabel output.data with
      | some g => g.asString
      | none => "Unknown"

/-- `OutputParser.parse_cisco`. -/
def parse_cisco (output : String) : SDict :=
  [ ("hostname", extract_hostname output),
    ("version", searchRegex (attLitWsGroup "Version".data) output),
    ("serial", searchRegex (attLabelColon "System serial number".data isNonSpace) output),
    ("model", searchRegex (attLabelColon "Model number".data isNonSpace) output),
    ("uptime", searchRegex attUptimeIs output),
    ("mac_address", searchRegex (attLabelColon "System MAC Address".data isMacChar) output) ]

/-- `OutputParser.parse_hirschmann` (hostname only, see the source's TODO). -/
def parse_hirschmann (output : String) : SDict :=
  [("hostname", extract_hostname output)]

/-- `OutputParser.parse_juniper` (hostname only, see the source's TODO). -/
def parse_juniper (output : String) : SDict :=
  [("hostname", extract_hostname output)]

/-- `OutputParser.generic_parse`. -/
def generic_parse (output : String) : SDict :=
  [ ("hostname", extract_hostname output),
    ("serial", searchRegex attGenericSerial output),
    ("mac_address", searchRegex attMac6 output),
    ("model", searchRegex attGenericModel output),
    ("version", searchRegex attGenericVersion output),
    ("uptime", searchRegex attGenericUptime output) ]

/-- `self.parsers.get(device_type, self.generic_parse)`: the dispatch table
built in `OutputParser.__init__`, with `generic_parse` as the default. -/
def dispatchParse (device_type : String) : String → SDict :=
  if device_type = "cisco_xe" then parse_cisco
  else if device_type = "cisco_ios" then parse_cisco
  else if device_type = "cisco_nxos" then parse_cisco
  else if device_type = "cisco_ios_xr" then parse_cisco
  else if device_type = "hirschmann" then parse_hirschmann
  else if device_type = "juniper" then parse_juniper
  else generic_parse

/-- `self.hostname_stats = {"extracted": 0, "failed": 0}`. -/
structure HostnameStats where
  extracted : Nat
  failed : Nat
deriving DecidableEq, Repr

/-- Lines 26-34 of `parse_output`: if the hostname is missing or the
sentinel, recompute it with `extract_hostname` and update `hostname_stats`. -/
def hostname_fallback (parsed : SDict) (command_output : String)
    (st : HostnameStats) : SDict × HostnameStats :=
  let missing :=
    match sget? parsed "hostname" with
    | none => true
    | some h => h = "Unknown"
  if missing then
    let hostname := extract_hostname command_output
    let parsed' := sset parsed "hostname" hostname
    if hostname = "Unknown" then
      (parsed', { st with failed := st.failed + 1 })
    else
      (parsed', { st with extracted := st.extracted + 1 })
  else
    (parsed, st)

/-- `OutputParser.parse_output`: dispatch, then the hostname fallback that
also updates `hostname_stats` (the mutated instance state is passed
explicitly). -/
def parse_output (device_type : String) (command_output : String)
    (st : HostnameStats) : SDict × HostnameStats :=
  hostname_fallback (dispatchParse device_type command_output) command_output st

/-! ## Python exceptions -/

/-- The exception classes the embedded code can raise. -/
inductive PyErr
  | attributeError
  | typeError
  | valueError
deriving DecidableEq, Repr

/-- The body of `OutputParser.parse_output` with the selected parser left
abstract: `parser = self.parsers.get(device_type, self.generic_parse)` is
followed directly by `parsed_data = parser(command_output)` with no
surrounding `try`, so an exception raised by the parser propagates to the
caller and the hostname-fallback lines never run. -/
def parse_output_body (parser : String → Except PyErr SDict)
    (command_output : String) (st : HostnameStats) :
    Except PyErr (SDict × HostnameStats) :=
  match parser command_output with
  | .error e => .error e
  | .ok parsed => .ok (hostname_fallback parsed command_output st)

/-- The registered parsers run `re.search` with fixed valid patterns on a
`str` argument, which raises no exception, so each table entry is total. -/
def dispatchParseE (device_type : String) : String → Except PyErr SDict :=
  fun s => .ok (dispatchParse device_type s)

/-- Exception-aware `parse_output` over the real dispatch table. -/
def parse_output_exc (device_type : String) (command_output : String)
    (st : HostnameStats) : Except PyErr (SDict × HostnameStats) :=
  parse_output_body (dispatchParseE device_type) command_output st

/-- Exception-aware `generic_parse` (total: `re.search` on `str` arguments). -/
def generic_parse_exc (output : String) : Except PyErr SDict :=
  .ok (generic_parse output)

/-! ## `CiscoParser` (src/src/parsers/cisco_parser.py)

`BaseParser.extract_with_pattern` compiles each pattern with
`re.IGNORECASE | re.MULTILINE` (`MULTILINE` is irrelevant: no pattern uses
`^` or `$`) and strips the captured group. -/

/-- `{lit}` then `(cls+)` at one position, case-insensitive; used for
`Processor board ID (\w+)` and `Version (\S+)`. -/
def attLitClsRun (lit : List Char) (cls : Char → Bool) (cs : List Char) :
    Option (List Char) :=
  match stripLitCI lit cs with
  | none => none
  | some rest => guardNE (rest.takeWhile cls)

/-- `cisco (\S+) \(` at one position, case-insensitive: the greedy token run
must be followed by a space and an opening parenthesis. -/
def attCiscoModel (cs : List Char) : Option (List Char) :=
  match stripLitCI "cisco ".data cs with
  | none => none
  | some rest =>
    let run := rest.takeWhile isNonSpace
    match rest.drop run.length with
    | ' ' :: '(' :: _ => guardNE run
    | _ => none

/-- `(\S+) uptime` at one position, case-insensitive: a greedy token run
followed by the literal ` uptime`. -/
def attTokenUptime (cs : List Char) : Option (List Char) :=
  let run := cs.takeWhile isNonSpace
  match stripLitCI " uptime".data (cs.drop run.length) with
  | some _ => guardNE run
  | none => none

/-- Lazy `(.+?)(?=\n|\r)`: the shortest non-empty run of non-`\n` characters
whose next character is `\n` or `\r`. -/
def lazyDotUntilCRLF : List Char → Option (List Char)
  | [] => none
  | c :: t =>
    if c = '\n' then none
    else
      match t with
      | [] => none
      | d :: _ =>
        if d = '\n' || d = '\r' then some [c]
        else (lazyDotUntilCRLF t).map (fun g => c :: g)

/-- `uptime is (.+?)(?=\n|\r)` at one position, case-insensitive. -/
def attUptimeLazy (cs : List Char) : Option (List Char) :=
  match stripLitCI "uptime is ".data cs with
  | none => none
  | some rest => lazyDotUntilCRLF rest

/-- `Cisco IOS Software.*Version (\S+)` at one position, case-insensitive:
the greedy `.*` selects the rightmost `Version <token>` on the same line. -/
def attIosVersion (cs : List Char) : Option (List Char) :=
  match stripLitCI "Cisco IOS Software".data cs with
  | none => none
  | some rest => lastAttIn (rest.takeWhile (fun c => c ≠ '\n'))
where
  /-- Try the `Version (\S+)` sub-pattern at every suffix, rightmost first. -/
  lastAttIn : List Char → Option (List Char)
    | [] => attLitClsRun "Version ".data isNonSpace []
    | c :: t =>
      match lastAttIn t with
      | some g => some g
      | none => attLitClsRun "Version ".data isNonSpace (c :: t)

/-- `System image file is "([^"]+)"` at one position, case-insensitive. -/
def attSystemImage (cs : List Char) : Option (List Char) :=
  match stripLitCI "System image file is \"".data cs with
  | none => none
  | some rest =>
    let run := rest.takeWhile (fun c => c ≠ '"')
    if run.isEmpty then none
    else if (rest.drop run.length).isEmpty then none
    else some run

/-- `BaseParser.extract_with_pattern(text, pattern, default='Unknown')`:
first-match group, stripped, or the default. -/
def extract_with_pattern (att : List Char → Option (List Char))
    (text : String) : String :=
  match reSearch att text.data with
  | some g => (pyStrip g).asString
  | none => "Unknown"

/-- Values of the heterogeneous Python dict built by `CiscoParser`:
strings, counts, lists of string-valued rows, and the empty dicts used for
`stack_info` / `power_info`. -/
inductive CVal
  | str (s : String)
  | nat (n : Nat)
  | rows (l : List SDict)
  | emptyDict
deriving DecidableEq, Repr

/-- Heterogeneous dict in Python insertion order. -/
abbrev CDict := List (String × CVal)

/-- Python `d[k]` lookup on a heterogeneous dict. -/
def cget? : CDict → String → Option CVal
  | [], _ => none
  | (k', v) :: t, k => if k' = k then some v else cget? t k

/-- Python `d[k] = v` on a heterogeneous dict. -/
def cset : CDict → String → CVal → CDict
  | [], k, v => [(k, v)]
  | (k', v') :: t, k, v => if k' = k then (k, v) :: t else (k', v') :: cset t k v

/-- Python `d.update(e)`: assign every key of `e` into `d` in order. -/
def cupdate (d e : CDict) : CDict := e.foldl (fun acc kv => cset acc kv.1 kv.2) d

/-- `CiscoParser.parse_version`: all patterns of `get_patterns` in their
insertion order, plus the conditional `ios_version` / `system_image` keys. -/
def cisco_parse_version (output : String) : CDict :=
  let base : CDict :=
    [ ("serial_number", .str (extract_with_pattern (attLitClsRun "Processor board ID ".data isPyWord) output)),
      ("model", .str (extract_with_pattern attCiscoModel output)),
      ("version", .str (extract_with_pattern (attLitClsRun "Version ".data isNonSpace) output)),
      ("hostname", .str (extract_with_pattern attTokenUptime output)),
      ("uptime", .str (extract_with_pattern attUptimeLazy output)),
      ("base_mac", .str (extract_with_pattern (attLabelColon "Base ethernet MAC Address".data isBaseMacChar) output)),
      ("system_serial", .str (extract_with_pattern (attLabelColon "System Serial Number".data isNonSpace) output)),
      ("chassis_serial", .str (extract_with_pattern (attLabelColon "Chassis Serial Number".data isNonSpace) output)) ]
  let iosVersion := extract_with_pattern attIosVersion output
  let d1 := if iosVersion = "Unknown" then base else cset base "ios_version" (.str iosVersion)
  let systemImage := extract_with_pattern attSystemImage output
  if systemImage = "Unknown" then d1 else cset d1 "system_image" (.str systemImage)

/-- Anchored `re.match({lbl}:\s*"([^"]*)")` on a stripped line (`NAME:` /
`DESCR:` lines of `show inventory`; the group may be empty). -/
def matchQuotedLabel (lbl : List Char) (line : List Char) : Option (List Char) :=
  match stripLit lbl line with
  | none => none
  | some rest =>
    match rest.dropWhile isPySpace with
    | '"' :: t =>
      let g := t.takeWhile (fun c => c ≠ '"')
      if (t.drop g.length).isEmpty then none else some g
    | _ => none

/-- Anchored `re.match({lbl}\s*(\S+))` on a line (`PID:` / `VID:` / `SN:` /
`Switch/Stack ` style labels). -/
def matchLabelTok (lbl : List Char) (line : List Char) : Option (List Char) :=
  match stripLit lbl line with
  | none => none
  | some rest =>
    let run := (rest.dropWhile isPySpace).takeWhile isNonSpace
    if run.isEmpty then none else some run

/-- One line of `CiscoParser.parse_inventory`: state is the flushed module
list and the currently open module. -/
def invLine (st : List SDict × SDict) (line0 : List Char) : List SDict × SDict :=
  let line := pyStrip line0
  if line.isEmpty then
    if st.2.isEmpty then st else (st.1 ++ [st.2], [])
  else
    match matchQuotedLabel "NAME:".data line with
    | some nm =>
      ((if st.2.isEmpty then st.1 else st.1 ++ [st.2]), [("name", nm.asString)])
    | none =>
      match matchQuotedLabel "DESCR:".data line with
      | some d => (st.1, sset st.2 "description" d.asString)
      | none =>
        match matchLabelTok "PID:".data line with
        | some p => (st.1, sset st.2 "product_id" p.asString)
        | none =>
          match matchLabelTok "VID:".data line with
          | some v => (st.1, sset st.2 "version_id" v.asString)
          | none =>
            match matchLabelTok "SN:".data line with
            | some s => (st.1, sset st.2 "serial_number" s.asString)
            | none => st

/-- `CiscoParser.parse_inventory`. -/
def cisco_parse_inventory (output : String) : CDict :=
  let fin := (splitNl output.data).foldl invLine ([], [])
  let mods := if fin.2.isEmpty then fin.1 else fin.1 ++ [fin.2]
  [("hardware_modules", .rows mods), ("total_modules", .nat mods.length)]

/-- One `\s+(\S+)` step of the anchored platform pattern: at least one
whitespace character, then a token; returns the token and the rest. -/
def wsThenTok (l : List Char) : Option (List Char × List Char) :=
  let w := l.takeWhile isPySpace
  if w.isEmpty then none
  else
    let r := l.drop w.length
    let tk := r.takeWhile isNonSpace
    if tk.isEmpty then none else some (tk, r.drop tk.length)

/-- Anchored `re.match((\d+)\s+(\S+)\s+(\S+)\s+(\S+)\s+(\S+))` of
`CiscoParser.parse_platform` applied to one (unstripped) line. -/
def matchPlatformLine (line : List Char) : Option SDict :=
  let d := line.takeWhile Char.isDigit
  if d.isEmpty then none
  else
    match wsThenTok (line.drop d.length) with
    | none => none
    | some (g2, r2) =>
      match wsThenTok r2 with
      | none => none
      | some (g3, r3) =>
        match wsThenTok r3 with
        | none => none
        | some (g4, r4) =>
          match wsThenTok r4 with
          | none => none
          | some (g5, _) =>
            some [ ("switch_number", d.asString), ("type", g2.asString),
                   ("hw_version", g3.asString), ("sw_version", g4.asString),
                   ("status", g5.asString) ]

/-- `CiscoParser.parse_platform`. -/
def cisco_parse_platform (output : String) : CDict :=
  let switches := (splitNl output.data).foldl
    (fun acc line =>
      match matchPlatformLine line with
      | some sw => acc ++ [sw]
      | none => acc) []
  [("stack_switches", .rows switches), ("stack_count", .nat switches.length)]

/-- Case-sensitive `{lit}\s*:\s*(cls+)` at one position, for the
`re.search` calls of `parse_switch_detail` (no `IGNORECASE` there). -/
def attLabelColonCS (lit : List Char) (cls : Char → Bool) (cs : List Char) :
    Option (List Char) :=
  match stripLit lit cs with
  | none => none
  | some rest =>
    match rest.dropWhile isPySpace with
    | [] => none
    | c :: t =>
      if c = ':' then guardNE ((t.dropWhile isPySpace).takeWhile cls)
      else none

/-- Anchored `re.match(Switch/Stack (\d+))`: the literal (with its trailing
space) followed immediately by a digit run. -/
def matchSwitchStack (line : List Char) : Option (List Char) :=
  match stripLit "Switch/Stack ".data line with
  | none => none
  | some rest =>
    let run := rest.takeWhile Char.isDigit
    if run.isEmpty then none else some run

/-- One line of `CiscoParser.parse_switch_detail`: state is the flushed
stack-member list and the currently open member. -/
def switchDetailLine (st : List SDict × SDict) (line0 : List Char) :
    List SDict × SDict :=
  let line := pyStrip line0
  match matchSwitchStack line with
  | some n =>
    ((if st.2.isEmpty then st.1 else st.1 ++ [st.2]), [("switch_number", n.asString)])
  | none => fallthroughSearches st line
where
  /-- The three `re.search` extractions tried after the `Switch/Stack` match. -/
  fallthroughSearches (st : List SDict × SDict) (line : List Char) :
      List SDict × SDict :=
    match reSearch (attLabelColonCS "MAC Address".data isMacChar) line with
    | some m => (st.1, sset st.2 "mac_address" m.asString)
    | none =>
      match reSearch (attLabelColonCS "Model".data isNonSpace) line with
      | some m => (st.1, sset st.2 "model" m.asString)
      | none =>
        match reSearch (attLabelColonCS "Serial Number".data isNonSpace) line with
        | some s => (st.1, sset st.2 "serial_number" s.asString)
        | none => st

/-- `CiscoParser.parse_switch_detail`. -/
def cisco_parse_switch_detail (output : String) : CDict :=
  let fin := (splitNl output.data).foldl switchDetailLine ([], [])
  let details := if fin.2.isEmpty then fin.1 else fin.1 ++ [fin.2]
  [("stack_details", .rows details)]

/-- Python `' '.join(parts)` on token lists. -/
def joinSpace (parts : List (List Char)) : String :=
  String.intercalate " " (parts.map List.asString)

/-- One line of `CiscoParser.parse_modules`: whitespace-split, at least four
tokens, first all digits. -/
def moduleOfLine (line : List Char) : Option SDict :=
  let parts := pySplitWs line
  if 4 ≤ parts.length ∧ (parts.headD []).all Char.isDigit ∧ parts.headD [] ≠ [] then
    some [ ("module_number", (parts.headD []).asString),
           ("ports", (parts.getD 1 []).asString),
           ("card_type", if 4 < parts.length
                         then joinSpace ((parts.drop 2).dropLast.dropLast)
                         else (parts.getD 2 []).asString),
           ("model", if 3 < parts.length
                     then (parts.getD (parts.length - 2) []).asString else ""),
           ("serial", if 3 < parts.length
                      then (parts.getD (parts.length - 1) []).asString else "") ]
  else none

/-- `CiscoParser.parse_modules`. -/
def cisco_parse_modules (output : String) : CDict :=
  let modules := (splitNl output.data).foldl
    (fun acc line =>
      match moduleOfLine line with
      | some m => acc ++ [m]
      | none => acc) []
  [("modules", .rows modules), ("module_count", .nat modules.length)]

/-- `CiscoParser.parse_interfaces`: skip header/separator/blank lines, keep
the first six whitespace tokens of each remaining line. -/
def cisco_parse_interfaces (output : String) : List SDict :=
  (splitNl output.data).foldl
    (fun acc line =>
      if hasSubstr "Interface".data line || hasSubstr "---".data line
          || (pyStrip line).isEmpty then acc
      else
        let parts := pySplitWs line
        if 6 ≤ parts.length then
          acc ++ [[ ("name", (parts.getD 0 []).asString),
                    ("ip", (parts.getD 1 []).asString),
                    ("ok", (parts.getD 2 []).asString),
                    ("method", (parts.getD 3 []).asString),
                    ("status", (parts.getD 4 []).asString),
                    ("protocol", (parts.getD 5 []).asString) ]]
        else acc) []

/-- A `RawCommandOutput`: the mapping from command name to raw text. -/
abbrev RawOutput := List (String × String)

/-- `CiscoParser.parse_all`. -/
def cisco_parse_all (raw_output : RawOutput) : CDict :=
  let result : CDict :=
    [ ("serial_number", .str "Unknown"), ("model", .str "Unknown"),
      ("version", .str "Unknown"), ("hostname", .str "Unknown"),
      ("interfaces", .rows []), ("uptime", .str "Unknown"),
      ("base_mac", .str "Unknown"), ("hardware_modules", .rows []),
      ("stack_info", .emptyDict), ("power_info", .emptyDict) ]
  let result := match sget? raw_output "version" with
    | some o => cupdate result (cisco_parse_version o)
    | none => result
  let result := match sget? raw_output "inventory" with
    | some o => cupdate result (cisco_parse_inventory o)
    | none => result
  let result := match sget? raw_output "platform" with
    | some o => cupdate result (cisco_parse_platform o)
    | none => result
  let result := match sget? raw_output "switch_detail" with
    | some o => cupdate result (cisco_parse_switch_detail o)
    | none => result
  let result := match sget? raw_output "modules" with
    | some o => cupdate result (cisco_parse_modules o)
    | none => result
  let result := match sget? raw_output "interfaces" with
    | some o => cset result "interfaces" (.rows (cisco_parse_interfaces o))
    | none => result
  result

/-! ## The Parser Registry entry point called by the Collector

`InventoryCollector` calls `self.output_parser.parse_device_output(...)` and
`self.output_parser.generic_parse({}, device_type)`, but `OutputParser`
defines neither a `parse_device_output` method nor a two-argument
`generic_parse`.  The spec (sections 4.3 and 4.4) describes both; they are
modelled from it below, next to faithful embeddings of what the missing
attribute / wrong arity actually do at run time. -/

/-- The vendor tags mapped to the Cisco parser in `OutputParser.__init__`. -/
def ciscoTags : List String := ["cisco_xe", "cisco_ios", "cisco_nxos", "cisco_ios_xr"]

/-- Concatenation of all raw text of a `RawCommandOutput`. -/
def concatRaw (raw : RawOutput) : String :=
  String.intercalate "\n" (raw.map Prod.snd)

/-- Modelled from the spec: the Generic Parser contract of section 4.4,
`generic_parse(raw: RawCommandOutput, device_type) -> ParsedDeviceRecord`,
is absent from the source (`OutputParser.generic_parse` takes one string).
Per the spec it applies the vendor-agnostic patterns (embedded above from
`OutputParser.generic_parse`) to the available raw text and adds
`raw_available`, the list of command names present in `raw`. -/
def generic_parse_spec (raw : RawOutput) (_device_type : String) : CDict :=
  ((generic_parse (concatRaw raw)).map (fun kv => (kv.1, CVal.str kv.2)))
    ++ [("raw_available", .rows (raw.map (fun kv => [("command", kv.1)])))]

/-- Modelled from the spec: `parse_device_output(device_type, raw)` of
section 4.3 is called by the Collector but defined nowhere in the source.
Per the spec: look the device type up in the vendor table (the Cisco family
maps to `CiscoParser.parse_all`; the Hirschmann vendor parser is not
modelled, no claim exercises it), run the vendor parser inside a failure
boundary that falls back to the Generic Parser, or go to the Generic Parser
directly for unregistered tags; afterwards, if the hostname is still the
sentinel, run the Hostname Resolver on the version command's output (or on
the concatenation of all raw text) and update its counters. -/
def parse_device_output (device_type : String) (raw : RawOutput)
    (st : HostnameStats) : CDict × HostnameStats :=
  let record :=
    if device_type ∈ ciscoTags then
      match (Except.ok (cisco_parse_all raw) : Except PyErr CDict) with
      | .ok d => d
      | .error _ => generic_parse_spec raw device_type
    else generic_parse_spec raw device_type
  let sentinel :=
    match cget? record "hostname" with
    | some (.str h) => h == "Unknown"
    | _ => true
  if sentinel then
    let text :=
      match sget? raw "version" with
      | some t => t
      | none => concatRaw raw
    let h := extract_hostname text
    let record' := cset record "hostname" (.str h)
    if h = "Unknown" then (record', { st with failed := st.failed + 1 })
    else (record', { st with extracted := st.extracted + 1 })
  else (record, st)

/-! ## `InventoryCollector` (src/src/core/inventory_collector.py) -/

/-- One element of `raw_results` as consumed by the parsing loop of
`collect_inventory_from_ips` (lines 84-137). -/
structure RawResult where
  ip_address : String
  device_type : String
  hostname : Option String
  connection_status : String
  raw_output : RawOutput
  errors : List String
deriving DecidableEq, Repr

/-- One element of `parsed_results`. -/
structure FinalResult where
  ip_address : String
  device_type : String
  hostname : Option String
  connection_status : String
  parsed_data : CDict
  errors : List String
  collection_time : String
deriving DecidableEq, Repr

/-- `self.output_parser.parse_device_output(...)` at line 92: the
`OutputParser` class of `src/src/core/output_parser.py` defines no
attribute `parse_device_output`, so the attribute lookup raises
`AttributeError` before any argument is evaluated. -/
def call_parse_device_output (_device_type : String) (_raw : RawOutput) :
    Except PyErr CDict :=
  .error .attributeError

/-- `self.output_parser.generic_parse({}, device_type)` at line 132:
`generic_parse(self, output)` accepts one positional argument, the call
passes two, so Python raises `TypeError` at argument binding, before the
body runs. -/
def call_generic_parse_two_args (_raw : RawOutput) (_device_type : String) :
    Except PyErr SDict :=
  .error .typeError

/-- The fallback hostname `f"device-{ip_addr.replace('.', '-')}"`. -/
def fallbackHostname (ip : String) : String :=
  "device-" ++ (pyReplaceChar '.' '-' ip.data).asString

/-- The loop body of `collect_inventory_from_ips` (lines 89-137) for one
raw result: the `try` block parses and reconciles the hostname; the
`except` block builds the error result — whose own `generic_parse` call
raises `TypeError`, which nothing catches. -/
def collect_parse_step (now : String) (r : RawResult) :
    Except PyErr FinalResult :=
  match call_parse_device_output r.device_type r.raw_output with
  | .ok parsed_data =>
    let extracted :=
      match cget? parsed_data "hostname" with
      | some (.str h) => h
      | _ => "Unknown"
    if extracted ≠ "" ∧ extracted ≠ "Unknown" then
      .ok { ip_address := r.ip_address, device_type := r.device_type,
            hostname := some extracted, connection_status := r.connection_status,
            parsed_data := parsed_data, errors := r.errors,
            collection_time := now }
    else
      let fb := fallbackHostname r.ip_address
      .ok { ip_address := r.ip_address, device_type := r.device_type,
            hostname := some fb, connection_status := r.connection_status,
            parsed_data := cset parsed_data "hostname" (.str fb),
            errors := r.errors, collection_time := now }
  | .error _e =>
    let fb := fallbackHostname r.ip_address
    match call_generic_parse_two_args [] r.device_type with
    | .ok pd =>
      .ok { ip_address := r.ip_address, device_type := r.device_type,
            hostname := some fb, connection_status := r.connection_status,
            parsed_data := cset (pd.map (fun kv => (kv.1, CVal.str kv.2)))
              "hostname" (.str fb),
            errors := r.errors ++
              ["Failed to parse output for " ++ r.ip_address], 
            collection_time := now }
    | .error e2 => .error e2

/-- The parsing loop over `raw_results`: an uncaught exception in one
iteration aborts the whole loop, discarding the remaining devices. -/
def collect_parse_loop (now : String) : List RawResult →
    Except PyErr (List FinalResult)
  | [] => .ok []
  | r :: rest =>
    match collect_parse_step now r with
    | .ok fr =>
      match collect_parse_loop now rest with
      | .ok frs => .ok (fr :: frs)
      | .error e => .error e
    | .error e => .error e

/-! ## `InventoryCollector.get_collection_summary` (lines 228-264) -/

/-- One element of the `results` list as read by the summary: `device_info`
fields accessed by key, with `hostname` and `ip_address` read through
`.get(..., '')` (hence optional). -/
structure SumRow where
  connection_status : String
  device_type : String
  hostname : Option String
  ip_address : Option String
deriving DecidableEq, Repr

/-- Counter-dict lookup `d.get(k, 0)`. -/
def nget : List (String × Nat) → String → Nat
  | [], _ => 0
  | (k', v) :: t, k => if k' = k then v else nget t k

/-- Counter-dict assignment. -/
def nset : List (String × Nat) → String → Nat → List (String × Nat)
  | [], k, v => [(k, v)]
  | (k', v') :: t, k, v => if k' = k then (k, v) :: t else (k', v') :: nset t k v

/-- `d[k] = d.get(k, 0) + 1`. -/
def nbump (d : List (String × Nat)) (k : String) : List (String × Nat) :=
  nset d k (nget d k + 1)

/-- The summary dict. -/
structure Summary where
  total_devices : Nat
  successful : Nat
  failed : Nat
  success_rate : ℚ
  device_types : List (String × Nat)
  status_counts : List (String × Nat)
  discovered_hostnames : List String
  hostname_discovery_rate : ℚ
  collection_time : String
deriving DecidableEq, Repr

/-- The predicate of line 251: `hostname and not hostname.startswith('device-')`. -/
def discoveredPred (r : SumRow) : Bool :=
  (r.hostname.getD "") ≠ "" && !((r.hostname.getD "").startsWith "device-")

/-- The formatted entry `f"{hostname} ({ip})"` of line 252. -/
def discoveredEntry (r : SumRow) : String :=
  (r.hostname.getD "") ++ " (" ++ (r.ip_address.getD "") ++ ")"

/-- The `discovered_hostnames` accumulation loop (lines 247-252). -/
def discoveredLoop (results : List SumRow) : List String :=
  results.foldl
    (fun acc r => if discoveredPred r then acc ++ [discoveredEntry r] else acc) []

/-- `InventoryCollector.get_collection_summary`; the `datetime.now()` read
is the explicit `now` argument. -/
def get_collection_summary (results : List SumRow) (now : String) : Summary :=
  let total_devices := results.length
  let successful := results.countP (fun r => r.connection_status == "success")
  let failed := total_devices - successful
  let device_types := results.foldl (fun acc r => nbump acc r.device_type) []
  let status_counts := results.foldl (fun acc r => nbump acc r.connection_status) []
  let discovered_hostnames := discoveredLoop results
  { total_devices := total_devices
    successful := successful
    failed := failed
    success_rate := if 0 < total_devices then (successful : ℚ) / total_devices * 100 else 0
    device_types := device_types
    status_counts := status_counts
    discovered_hostnames := discovered_hostnames
    hostname_discovery_rate :=
      if 0 < total_devices then (discovered_hostnames.length : ℚ) / total_devices * 100 else 0
    collection_time := now }

/-! ## Lemmas: captured groups are never empty -/

theorem guardNE_some {l g : List Char} (h : guardNE l = some g) : g ≠ [] := by
  unfold guardNE at h
  split at h
  · exact Option.noConfusion h
  · rename_i hne
    cases h
    cases l with
    | nil => exact absurd rfl hne
    | cons a t => simp

theorem attPrompt_some_ne {stop : Char} {cs g : List Char}
    (h : attPrompt stop cs = some g) : g ≠ [] := by
  simp only [attPrompt] at h
  repeat' split at h
  all_goals try exact Option.noConfusion h
  all_goals try exact guardNE_some h

theorem attHostnameLabel_some_ne {cs g : List Char}
    (h : attHostnameLabel cs = some g) : g ≠ [] := by
  simp only [attHostnameLabel] at h
  repeat' split at h
  all_goals try exact Option.noConfusion h
  all_goals try exact guardNE_some h

theorem attLitWsGroup_some_ne {lit cs g : List Char}
    (h : attLitWsGroup lit cs = some g) : g ≠ [] := by
  simp only [attLitWsGroup] at h
  repeat' split at h
  all_goals try exact Option.noConfusion h
  all_goals try exact guardNE_some h

theorem attLabelColon_some_ne {lit : List Char} {cls : Char → Bool}
    {cs g : List Char} (h : attLabelColon lit cls cs = some g) : g ≠ [] := by
  simp only [attLabelColon] at h
  repeat' split at h
  all_goals try exact Option.noConfusion h
  all_goals try exact guardNE_some h

theorem attUptimeIs_some_ne {cs g : List Char}
    (h : attUptimeIs cs = some g) : g ≠ [] := by
  simp only [attUptimeIs] at h
  repeat' split at h
  all_goals try exact Option.noConfusion h
  all_goals try exact guardNE_some h

theorem attOptColonTail_some_ne {cls : Char → Bool} {cs g : List Char}
    (h : attOptColonTail cls cs = some g) : g ≠ [] := by
  simp only [attOptColonTail] at h
  repeat' split at h
  all_goals try exact Option.noConfusion h
  all_goals try exact guardNE_some h
  all_goals (cases h; simp_all)

theorem dropWhile_head_not {α} {p : α → Bool} {l : List α} {c : α} {t : List α}
    (h : l.dropWhile p = c :: t) : p c = false := by
  induction l with
  | nil => simp [List.dropWhile] at h
  | cons a l ih =>
    simp only [List.dropWhile] at h
    split at h
    · exact ih h
    · cases h; simp_all

theorem attDotTail_some_ne {cs g : List Char}
    (h : attDotTail cs = some g) : g ≠ [] := by
  simp only [attDotTail] at h
  repeat' split at h
  all_goals try exact Option.noConfusion h
  all_goals (cases h; simp_all)
  rename_i heq hcc
  intro hc
  subst hc
  have hns := dropWhile_head_not heq
  simp [isPySpace] at hns

theorem attGenericSerial_some_ne {cs g : List Char}
    (h : attGenericSerial cs = some g) : g ≠ [] := by
  simp only [attGenericSerial] at h
  repeat' split at h
  all_goals try exact Option.noConfusion h
  all_goals exact attOptColonTail_some_ne h

theorem attGenericModel_some_ne {cs g : List Char}
    (h : attGenericModel cs = some g) : g ≠ [] := by
  simp only [attGenericModel] at h
  repeat' split at h
  all_goals try exact Option.noConfusion h
  all_goals exact attOptColonTail_some_ne h

theorem attGenericVersion_some_ne {cs g : List Char}
    (h : attGenericVersion cs = some g) : g ≠ [] := by
  simp only [attGenericVersion] at h
  repeat' split at h
  all_goals try exact Option.noConfusion h
  all_goals exact attOptColonTail_some_ne h

theorem attGenericUptime_some_ne {cs g : List Char}
    (h : attGenericUptime cs = some g) : g ≠ [] := by
  simp only [attGenericUptime] at h
  repeat' split at h
  all_goals try exact Option.noConfusion h
  all_goals exact attDotTail_some_ne h

theorem colonHexStep_some_ne {st : Option (List Char × List Char)}
    {g r : List Char} (h : colonHexStep st = some (g, r)) : g ≠ [] := by
  unfold colonHexStep at h
  repeat' split at h
  all_goals first
    | exact Option.noConfusion h
    | (simp only [Option.some.injEq, Prod.mk.injEq] at h
       obtain ⟨h1, _⟩ := h
       subst h1
       simp)

theorem attMac6_some_ne {cs g : List Char}
    (h : attMac6 cs = some g) : g ≠ [] := by
  unfold attMac6 at h
  split at h
  · exact Option.noConfusion h
  · rw [Option.map_eq_some'] at h
    obtain ⟨⟨g', r'⟩, hstep, hfst⟩ := h
    cases hfst
    exact colonHexStep_some_ne hstep

theorem reSearch_some_ne {att : List Char → Option (List Char)}
    (hatt : ∀ cs g, att cs = some g → g ≠ []) :
    ∀ cs g, reSearch att cs = some g → g ≠ [] := by
  intro cs
  induction cs with
  | nil =>
    intro g h
    exact hatt [] g (by simpa [reSearch] using h)
  | cons c t ih =>
    intro g h
    rw [reSearch] at h
    cases hc : att (c :: t) with
    | some g' => rw [hc] at h; cases h; exact hatt _ _ hc
    | none => rw [hc] at h; exact ih g h

theorem asString_ne_empty {l : List Char} (h : l ≠ []) : l.asString ≠ "" := by
  intro hc
  apply h
  have hd := congrArg String.data hc
  simpa [List.asString] using hd

theorem searchRegex_ne_of {att : List Char → Option (List Char)}
    (hatt : ∀ cs g, att cs = some g → g ≠ []) (s : String) :
    searchRegex att s ≠ "" := by
  unfold searchRegex
  cases hr : reSearch att s.data with
  | some g => exact asString_ne_empty (reSearch_some_ne hatt _ _ hr)
  | none => decide

theorem extract_hostname_ne (s : String) : extract_hostname s ≠ "" := by
  unfold extract_hostname
  cases h1 : reSearch (attPrompt '>') s.data with
  | some g => exact asString_ne_empty (reSearch_some_ne (fun _ _ => attPrompt_some_ne) _ _ h1)
  | none =>
    cases h2 : reSearch (attPrompt '#') s.data with
    | some g => exact asString_ne_empty (reSearch_some_ne (fun _ _ => attPrompt_some_ne) _ _ h2)
    | none =>
      cases h3 : reSearch attHostnameLabel s.data with
      | some g => exact asString_ne_empty (reSearch_some_ne (fun _ _ => attHostnameLabel_some_ne) _ _ h3)
      | none => decide

/-! ## Lemmas: dictionary update and lookup -/

theorem sget?_sset_cases {d : SDict} {k k' v w : String}
    (h : sget? (sset d k v) k' = some w) : w = v ∨ sget? d k' = some w := by
  induction d with
  | nil =>
    simp only [sset, sget?] at h
    split at h
    · cases h; exact Or.inl rfl
    · exact Option.noConfusion h
  | cons kv t ih =>
    obtain ⟨k0, v0⟩ := kv
    simp only [sset] at h
    split at h
    · rename_i hk0
      simp only [sget?] at h
      split at h
      · cases h; exact Or.inl rfl
      · rename_i hkk
        right
        simp only [sget?]
        rw [if_neg (by rw [hk0]; exact hkk)]
        exact h
    · simp only [sget?] at h
      split at h
      · cases h
        right
        simp only [sget?]
        rw [if_pos (by assumption)]
      · rcases ih h with h1 | h2
        · exact Or.inl h1
        · right
          simp only [sget?]
          rw [if_neg (by assumption)]
          exact h2

theorem skeys_sset_of_mem {d : SDict} {k : String} (v : String)
    (hm : k ∈ skeys d) : skeys (sset d k v) = skeys d := by
  induction d with
  | nil => simp [skeys] at hm
  | cons kv t ih =>
    obtain ⟨k0, v0⟩ := kv
    simp only [sset]
    split
    · rename_i hk0
      simp [skeys, hk0]
    · rename_i hk0
      have hm' : k ∈ skeys t := by
        simp only [skeys, List.map_cons, List.mem_cons] at hm
        rcases hm with h1 | h2
        · exact absurd h1.symm hk0
        · exact h2
      have hrec := ih hm'
      simp only [skeys, List.map_cons] at hrec ⊢
      simp [hrec]

/-! ## Lemmas: every field of the parsed records is a non-empty string -/

theorem parse_cisco_vals {s k v : String}
    (h : sget? (parse_cisco s) k = some v) : v ≠ "" := by
  simp only [parse_cisco, sget?] at h
  repeat' split at h
  all_goals try exact Option.noConfusion h
  all_goals cases h
  · exact extract_hostname_ne s
  · exact searchRegex_ne_of (fun _ _ => attLitWsGroup_some_ne) s
  · exact searchRegex_ne_of (fun _ _ => attLabelColon_some_ne) s
  · exact searchRegex_ne_of (fun _ _ => attLabelColon_some_ne) s
  · exact searchRegex_ne_of (fun _ _ => attUptimeIs_some_ne) s
  · exact searchRegex_ne_of (fun _ _ => attLabelColon_some_ne) s

theorem generic_parse_vals {s k v : String}
    (h : sget? (generic_parse s) k = some v) : v ≠ "" := by
  simp only [generic_parse, sget?] at h
  repeat' split at h
  all_goals try exact Option.noConfusion h
  all_goals cases h
  · exact extract_hostname_ne s
  · exact searchRegex_ne_of (fun _ _ => attGenericSerial_some_ne) s
  · exact searchRegex_ne_of (fun _ _ => attMac6_some_ne) s
  · exact searchRegex_ne_of (fun _ _ => attGenericModel_some_ne) s
  · exact searchRegex_ne_of (fun _ _ => attGenericVersion_some_ne) s
  · exact searchRegex_ne_of (fun _ _ => attGenericUptime_some_ne) s

theorem parse_hirschmann_vals {s k v : String}
    (h : sget? (parse_hirschmann s) k = some v) : v ≠ "" := by
  simp only [parse_hirschmann, sget?] at h
  split at h
  · cases h; exact extract_hostname_ne s
  · exact Option.noConfusion h

theorem parse_juniper_vals {s k v : String}
    (h : sget? (parse_juniper s) k = some v) : v ≠ "" := by
  simp only [parse_juniper, sget?] at h
  split at h
  · cases h; exact extract_hostname_ne s
  · exact Option.noConfusion h

theorem dispatchParse_vals (dt s : String) {k v : String}
    (h : sget? (dispatchParse dt s) k = some v) : v ≠ "" := by
  simp only [dispatchParse] at h
  split_ifs at h
  · exact parse_cisco_vals h
  · exact parse_cisco_vals h
  · exact parse_cisco_vals h
  · exact parse_cisco_vals h
  · exact parse_hirschmann_vals h
  · exact parse_juniper_vals h
  · exact generic_parse_vals h

theorem hostname_fallback_vals {parsed : SDict} {s : String} {st : HostnameStats}
    (hp : ∀ k v, sget? parsed k = some v → v ≠ "") :
    ∀ k v, sget? (hostname_fallback parsed s st).1 k = some v → v ≠ "" := by
  intro k v h
  simp only [hostname_fallback] at h
  repeat' split at h
  all_goals simp only at h
  all_goals first
    | exact hp _ _ h
    | (rcases sget?_sset_cases h with h1 | h2
       · subst h1; exact extract_hostname_ne s
       · exact hp _ _ h2)

theorem hostname_fallback_keys (parsed : SDict) (s : String) (st : HostnameStats)
    (hm : "hostname" ∈ skeys parsed) :
    skeys (hostname_fallback parsed s st).1 = skeys parsed := by
  simp only [hostname_fallback]
  repeat' split
  all_goals simp [skeys_sset_of_mem _ hm]

/-! ## Claim theorems -/

/-- C1 (amended): for every device type and every string input,
`parse_output` returns a record whose keys are `hostname`, `version`,
`serial`, `model`, `uptime`, `mac_address` for the Cisco tags, just
`hostname` for `hirschmann`/`juniper`, and the six generic keys for
unregistered tags (the keys `serial_number` and `base_mac` of the claim do
not occur); every value present is a non-empty string (the sentinel
`"Unknown"` included). -/
theorem c1_parse_output_shape (dt s : String) (st : HostnameStats) :
    (skeys (parse_output dt s st).1 =
      if dt ∈ ciscoTags then
        ["hostname", "version", "serial", "model", "uptime", "mac_address"]
      else if dt = "hirschmann" ∨ dt = "juniper" then ["hostname"]
      else ["hostname", "serial", "mac_address", "model", "version", "uptime"])
    ∧ (∀ k v, sget? (parse_output dt s st).1 k = some v → v ≠ "") := by
  constructor
  · by_cases hc : dt ∈ ciscoTags
    · have hd : dispatchParse dt s = parse_cisco s := by
        simp only [ciscoTags, List.mem_cons, List.not_mem_nil, or_false] at hc
        rcases hc with h | h | h | h <;> simp [dispatchParse, h]
      unfold parse_output
      rw [hd, hostname_fallback_keys _ _ _ (List.mem_cons_self _ _)]
      simp [hc, parse_cisco, skeys]
    · by_cases hh : dt = "hirschmann" ∨ dt = "juniper"
      · rcases hh with h | h
        · subst h
          unfold parse_output
          rw [show dispatchParse "hirschmann" = parse_hirschmann by simp [dispatchParse],
            hostname_fallback_keys _ _ _ (List.mem_cons_self _ _)]
          simp [ciscoTags, parse_hirschmann, skeys]
        · subst h
          unfold parse_output
          rw [show dispatchParse "juniper" = parse_juniper by simp [dispatchParse],
            hostname_fallback_keys _ _ _ (List.mem_cons_self _ _)]
          simp [ciscoTags, parse_juniper, skeys]
      · have hd : dispatchParse dt s = generic_parse s := by
          simp only [ciscoTags, List.mem_cons, List.not_mem_nil, or_false, not_or] at hc
          simp only [not_or] at hh
          obtain ⟨n1, n2, n3, n4⟩ := hc
          obtain ⟨n5, n6⟩ := hh
          simp [dispatchParse, n1, n2, n3, n4, n5, n6]
        unfold parse_output
        rw [hd, hostname_fallback_keys _ _ _ (List.mem_cons_self _ _)]
        simp [hc, hh, generic_parse, skeys]
  · intro k v h
    unfold parse_output at h
    exact hostname_fallback_vals (fun k' v' hh => dispatchParse_vals dt s hh) k v h

/-- C1 witness: a concrete record in which the hypothesis of the value part
is discharged at `hostname = "Router1"`, which is therefore non-empty. -/
theorem c1_parse_output_shape_witness :
    ("Router1" : String) ≠ ""
    ∧ sget? (parse_output "cisco_ios" "Router1#" ⟨0, 0⟩).1 "hostname"
        = some "Router1" := by
  constructor
  · exact (c1_parse_output_shape "cisco_ios" "Router1#" ⟨0, 0⟩).2 "hostname"
      "Router1" (by decide)
  · decide

/-- C1 counterexample: the claim as stated is false.  The in-source entry
point `parse_output` produces no `serial_number` key at all (its Cisco and
generic records use `serial`/`mac_address`), and the registry entry point
described by the spec (`parse_device_output`, modelled above) can produce an
empty-string `uptime` (neither non-empty-after-stripping nor `"Unknown"`)
because `uptime is (.+?)(?=\n|\r)` can capture pure whitespace that
`.strip()` then empties. -/
theorem c1_counterexample :
    sget? (parse_output "cisco_ios" "" ⟨0, 0⟩).1 "serial_number" = none
    ∧ cget? (parse_device_output "cisco_ios" [("version", "uptime is \t\n")]
        ⟨0, 0⟩).1 "uptime" = some (CVal.str "") := by
  exact ⟨by decide, by decide⟩

/-- C2 (amended): `parse_output` invokes the selected vendor parser with no
failure boundary: if the parser raises, the exception propagates unchanged
out of `parse_output` to its caller; the Generic Parser is not invoked. -/
theorem c2_vendor_exception_propagates
    (parser : String → Except PyErr SDict) (s : String) (st : HostnameStats)
    (e : PyErr) (h : parser s = Except.error e) :
    parse_output_body parser s st = Except.error e := by
  unfold parse_output_body
  rw [h]

/-- C2 witness: a vendor parser that always raises `ValueError` makes
`parse_output` itself raise `ValueError`. -/
theorem c2_vendor_exception_propagates_witness :
    parse_output_body (fun _ => Except.error PyErr.valueError) "" ⟨0, 0⟩
      = Except.error PyErr.valueError :=
  c2_vendor_exception_propagates (fun _ => Except.error PyErr.valueError) ""
    ⟨0, 0⟩ PyErr.valueError rfl

/-- C2 counterexample: with a raising vendor parser, `parse_output` does not
return normally at all, in particular it does not return the result of
`generic_parse` on the same input. -/
theorem c2_counterexample :
    ¬ ∃ r, parse_output_body (fun _ => Except.error PyErr.valueError) "" ⟨0, 0⟩
        = Except.ok r := by
  intro hex
  obtain ⟨r, hr⟩ := hex
  simp [parse_output_body] at hr

/-- C4: on every string input, `parse_output` and `generic_parse` return
normally — the exception-aware embeddings always produce `Except.ok` of the
pure results, for every device type, input text and counter state. -/
theorem c4_no_exception_on_string_inputs (dt s : String) (st : HostnameStats) :
    parse_output_exc dt s st = Except.ok (parse_output dt s st)
    ∧ generic_parse_exc s = Except.ok (generic_parse s) :=
  ⟨rfl, rfl⟩

/-- C5: Scenario A — for device type `cisco_ios` and the single
`version` command output of the claim, the registry pipeline
(`CiscoParser.parse_all` plus the hostname resolver fallback) yields
`hostname = "Router1"`, `version = "15.2(4)E10"` and
`serial_number = "FOC1932X0K1"`. -/
theorem c5_scenario_a :
    cget? (parse_device_output "cisco_ios"
        [("version",
          "Router1#\nCisco IOS Software, Version 15.2(4)E10\nProcessor board ID FOC1932X0K1\n")]
        ⟨0, 0⟩).1 "hostname" = some (CVal.str "Router1")
    ∧ cget? (parse_device_output "cisco_ios"
        [("version",
          "Router1#\nCisco IOS Software, Version 15.2(4)E10\nProcessor board ID FOC1932X0K1\n")]
        ⟨0, 0⟩).1 "version" = some (CVal.str "15.2(4)E10")
    ∧ cget? (parse_device_output "cisco_ios"
        [("version",
          "Router1#\nCisco IOS Software, Version 15.2(4)E10\nProcessor board ID FOC1932X0K1\n")]
        ⟨0, 0⟩).1 "serial_number" = some (CVal.str "FOC1932X0K1") := by
  exact ⟨by decide, by decide, by decide⟩

/-- C7: `extract_hostname` tries its three patterns in strict priority order
(`>`-prompt, then `#`-prompt, then `Hostname:` label), returns the first
match's captured group, and falls back to `"Unknown"` when none match; in
particular whenever the `>` pattern has no match and the `#` pattern
matches, the `#`-prompt token is returned regardless of any `Hostname:`
field. -/
theorem c7_hostname_priority_order :
    (∀ (s : String) (g : List Char),
        reSearch (attPrompt '>') s.data = some g →
        extract_hostname s = g.asString)
    ∧ (∀ (s : String) (g : List Char),
        reSearch (attPrompt '>') s.data = none →
        reSearch (attPrompt '#') s.data = some g →
        extract_hostname s = g.asString)
    ∧ (∀ (s : String) (g : List Char),
        reSearch (attPrompt '>') s.data = none →
        reSearch (attPrompt '#') s.data = none →
        reSearch attHostnameLabel s.data = some g →
        extract_hostname s = g.asString)
    ∧ (∀ s : String,
        reSearch (attPrompt '>') s.data = none →
        reSearch (attPrompt '#') s.data = none →
        reSearch attHostnameLabel s.data = none →
        extract_hostname s = "Unknown") := by
  refine ⟨?_, ?_, ?_, ?_⟩
  · intro s g h1
    unfold extract_hostname
    rw [h1]
  · intro s g h1 h2
    unfold extract_hostname
    rw [h1, h2]
  · intro s g h1 h2 h3
    unfold extract_hostname
    rw [h1, h2, h3]
  · intro s h1 h2 h3
    unfold extract_hostname
    rw [h1, h2, h3]

/-- C7 witness: a text holding both a `#`-prompt token (`sw1`) and a
`Hostname:` field with a different value (`other`), and no `>` prompt:
the `#`-prompt token wins. -/
theorem c7_hostname_priority_order_witness :
    extract_hostname "sw1#\nHostname: other" = "sw1" := by
  have h := c7_hostname_priority_order.2.1 "sw1#\nHostname: other" "sw1".data
    (by decide) (by decide)
  rw [h]
  decide

/-- C3: the failing input evaluated — for a two-device batch, the first
device's parse raises `AttributeError` (`parse_device_output` does not
exist on `OutputParser`), the `except` handler then calls `generic_parse`
with two positional arguments and raises `TypeError`, which nothing
catches: the loop aborts with no result appended and the second device is
never processed — instead of appending a failed `CollectionResult` and
continuing as the claim (and spec) require. -/
theorem c3_collector_error_path_raises :
    collect_parse_loop "2025-01-01T00:00:00"
      [ { ip_address := "10.0.0.1", device_type := "cisco_ios",
          hostname := some "test-switch-0", connection_status := "success",
          raw_output := [("version", "Router1#\n")], errors := [] },
        { ip_address := "10.0.0.2", device_type := "cisco_ios",
          hostname := some "test-switch-1", connection_status := "success",
          raw_output := [("version", "Router2#\n")], errors := [] } ]
      = Except.error PyErr.typeError := rfl

/-- C6: for every result list the summary satisfies
`successful + failed = total_devices`, and `success_rate` is
`successful / total_devices * 100` with `0` when `total_devices = 0`. -/
theorem c6_summary_arithmetic (results : List SumRow) (now : String) :
    (get_collection_summary results now).successful
        + (get_collection_summary results now).failed
      = (get_collection_summary results now).total_devices
    ∧ (get_collection_summary results now).success_rate
      = (if (get_collection_summary results now).total_devices = 0 then 0
         else ((get_collection_summary results now).successful : ℚ)
            / ((get_collection_summary results now).total_devices : ℚ) * 100) := by
  constructor
  · have hle : results.countP (fun r => r.connection_status == "success")
        ≤ results.length := List.countP_le_length _
    simp only [get_collection_summary]
    omega
  · simp only [get_collection_summary]
    rcases Nat.eq_zero_or_pos results.length with h | h
    · simp [h]
    · rw [if_pos h, if_neg (by omega)]

/-- C8 counterexample: the summary is not a pure function of the result
list — it embeds the wall-clock `datetime.now()` in `collection_time`, so
two calls on the same (empty) result list at different times differ. -/
theorem c8_counterexample :
    get_collection_summary [] "2020-01-01T00:00:00"
      ≠ get_collection_summary [] "2021-01-01T00:00:00" := by
  intro h
  have hc := congrArg Summary.collection_time h
  simp [get_collection_summary] at hc

/-- C8 (amended): every field of the summary except `collection_time` is a
pure function of the result list — calls at different times agree on all of
them — and `collection_time` is exactly the wall-clock reading. -/
theorem c8_summary_pure_modulo_time (results : List SumRow) (n1 n2 : String) :
    (get_collection_summary results n1).total_devices
        = (get_collection_summary results n2).total_devices
    ∧ (get_collection_summary results n1).successful
        = (get_collection_summary results n2).successful
    ∧ (get_collection_summary results n1).failed
        = (get_collection_summary results n2).failed
    ∧ (get_collection_summary results n1).success_rate
        = (get_collection_summary results n2).success_rate
    ∧ (get_collection_summary results n1).device_types
        = (get_collection_summary results n2).device_types
    ∧ (get_collection_summary results n1).status_counts
        = (get_collection_summary results n2).status_counts
    ∧ (get_collection_summary results n1).discovered_hostnames
        = (get_collection_summary results n2).discovered_hostnames
    ∧ (get_collection_summary results n1).hostname_discovery_rate
        = (get_collection_summary results n2).hostname_discovery_rate
    ∧ (get_collection_summary results n1).collection_time = n1 :=
  ⟨rfl, rfl, rfl, rfl, rfl, rfl, rfl, rfl, rfl⟩

theorem foldl_discovered_append (l : List SumRow) (acc : List String) :
    l.foldl (fun acc r => if discoveredPred r then acc ++ [discoveredEntry r] else acc) acc
      = acc ++ (l.filter discoveredPred).map discoveredEntry := by
  induction l generalizing acc with
  | nil => simp
  | cons r t ih =>
    simp only [List.foldl_cons, List.filter_cons]
    by_cases hp : discoveredPred r
    · simp [hp, ih, List.append_assoc]
    · simp [hp, ih]

/-- C9: a result contributes an entry to `discovered_hostnames` exactly when
its hostname is a non-empty string that does not start with `device-`
(genuinely reported `device-…` hostnames and absent/empty hostnames are
excluded), and `hostname_discovery_rate` is the matching fraction. -/
theorem c9_discovered_hostnames (results : List SumRow) (now : String) :
    (get_collection_summary results now).discovered_hostnames
        = (results.filter discoveredPred).map discoveredEntry
    ∧ (get_collection_summary results now).hostname_discovery_rate
      = (if results.length = 0 then 0
         else ((results.filter discoveredPred).length : ℚ)
            / (results.length : ℚ) * 100)
    ∧ (∀ r : SumRow, discoveredPred r = true ↔
        (r.hostname.getD "" ≠ ""
          ∧ ¬((r.hostname.getD "").startsWith "device-" = true))) := by
  have hloop : discoveredLoop results
      = (results.filter discoveredPred).map discoveredEntry := by
    simpa using foldl_discovered_append results []
  refine ⟨?_, ?_, ?_⟩
  · simp only [get_collection_summary]
    exact hloop
  · simp only [get_collection_summary]
    rw [hloop]
    rcases Nat.eq_zero_or_pos results.length with h | h
    · simp [h]
    · rw [if_pos h, if_neg (by omega)]
      simp
  · intro r
    simp [discoveredPred]

/-- The condition of lines 27-33 of `output_parser.py` as a predicate: the
dispatched parser's record has no hostname key or carries the sentinel. -/
def hostnameMissing (dt s : String) : Bool :=
  match sget? (dispatchParse dt s) "hostname" with
  | none => true
  | some h => h = "Unknown"

/-- C10: each `parse_output` call leaves `hostname_stats` unchanged when the
dispatched parser already produced a non-sentinel hostname, and otherwise
increments exactly one of the two counters by one (`extracted` when
`extract_hostname` finds a name, `failed` when it returns `"Unknown"`);
hence both counters are non-decreasing, and over any sequence of calls the
total increase of their sum equals the number of calls that needed the
hostname fallback. -/
theorem c10_hostname_stats_invariant :
    (∀ dt s st, (parse_output dt s st).2 =
      (if hostnameMissing dt s then
        (if extract_hostname s = "Unknown"
         then { st with failed := st.failed + 1 }
         else { st with extracted := st.extracted + 1 })
       else st))
    ∧ (∀ dt s st, st.extracted ≤ (parse_output dt s st).2.extracted
        ∧ st.failed ≤ (parse_output dt s st).2.failed)
    ∧ (∀ (calls : List (String × String)) (st : HostnameStats),
        (calls.foldl (fun acc c => (parse_output c.1 c.2 acc).2) st).extracted
          + (calls.foldl (fun acc c => (parse_output c.1 c.2 acc).2) st).failed
        = st.extracted + st.failed
            + calls.countP (fun c => hostnameMissing c.1 c.2)) := by
  have h1 : ∀ dt s st, (parse_output dt s st).2 =
      (if hostnameMissing dt s then
        (if extract_hostname s = "Unknown"
         then { st with failed := st.failed + 1 }
         else { st with extracted := st.extracted + 1 })
       else st) := by
    intro dt s st
    unfold parse_output hostname_fallback hostnameMissing
    cases hm : sget? (dispatchParse dt s) "hostname" with
    | none => simp only [hm]; split_ifs <;> rfl
    | some h => simp only [hm]; split_ifs <;> simp_all
  refine ⟨h1, ?_, ?_⟩
  · intro dt s st
    rw [h1]
    split_ifs <;> simp
  · intro calls
    induction calls with
    | nil => intro st; simp
    | cons c t ih =>
      intro st
      simp only [List.foldl_cons, List.countP_cons]
      have hstep : ((parse_output c.1 c.2 st).2).extracted
            + ((parse_output c.1 c.2 st).2).failed
          = st.extracted + st.failed
              + (if hostnameMissing c.1 c.2 then 1 else 0) := by
        rw [h1]
        split_ifs <;> (try simp) <;> omega
      rw [ih ((parse_output c.1 c.2 st).2)]
      rw [hstep]
      split_ifs <;> omega
